import Mathlib

/-!
Verification of `tinycal_holiday_updater.py`.

A shallow embedding of the two core functions of the script:

* `fetch_holiday_data` (source lines 14-60): parse an already-retrieved JSON
  document into a date -> off-day mapping (the HTTP transport itself is I/O
  and outside the embedding; the function is modelled from the point where
  `response.json()` has produced a value).
* `update_single_plist_file` (source lines 62-152): patch the `monthData`
  records of an already-loaded plist value (backup and `plistlib.load` are
  I/O; the embedding starts at line 110 with the loaded `plist_content`,
  and a boolean `writeOk` parameter stands for whether the `plistlib.dump`
  at lines 140-141 succeeds).

Python values appearing in plist / JSON documents are modelled by `PValue`
(floats, raw data and dates are omitted: none of the claims concern them).
Dynamic-typing behaviour of the Python operations used by the script is
modelled faithfully:

* `k in x` (`keyIn`): key test on a dict, substring test on a string,
  membership (string equality) on a list, `TypeError` otherwise;
* `x[k]` (`getItem`): dict lookup (`KeyError` when absent), `TypeError`
  on any non-dict, since the subscript is a string;
* `int(x)` (`pyInt`): identity on ints, 0/1 on bools, decimal-string
  parsing on strings (`ValueError` on a malformed string; underscore
  separators and non-ASCII digits are omitted), `TypeError` on lists,
  dicts and `None`;
* `x != n` for an int literal `n` (`pyEqOptInt`): numeric comparison for
  ints and bools (`True == 1`, `False == 0`), `False`-equality for every
  other type, `None` compares unequal;
* `d[k] = v` on a dict (`setPair`): replace the value at the first matching
  key, else append;
* truthiness (`pyTruthy`): Python `bool()` of the modelled values.

Uncaught Python exceptions are the `Except.error` results of `PyError`;
the script's `except ValueError` at line 126 is the only handler inside
the scan, so a `TypeError` escapes `update_single_plist_file` while a
`ValueError` just skips the record.
-/

set_option autoImplicit false

/-- Values stored in plist / JSON documents, as the script can observe them. -/
inductive PValue : Type where
  | vNull : PValue
  | vBool : Bool → PValue
  | vInt : Int → PValue
  | vStr : String → PValue
  | vList : List PValue → PValue
  | vDict : List (String × PValue) → PValue

/-- Uncaught Python exceptions raised by the modelled code. -/
inductive PyError : Type where
  | typeError : PyError
  | keyError : PyError
deriving DecidableEq

/-- Result of Python `int(x)`: a value, a `ValueError`, or a `TypeError`. -/
inductive IntConv : Type where
  | ok : Int → IntConv
  | valueErr : IntConv
  | typeErr : IntConv
deriving DecidableEq

/-- First-match lookup in a string-keyed association list (Python dict read). -/
def alookup {α : Type} (k : String) : List (String × α) → Option α
  | [] => none
  | (k', v) :: rest => if k' == k then some v else alookup k rest

/-- Python `d[k] = v` on a dict: replace the value at the first matching key,
append a fresh pair otherwise. -/
def setPair {α : Type} (k : String) (v : α) : List (String × α) → List (String × α)
  | [] => [(k, v)]
  | (k', v') :: rest => if k' == k then (k', v) :: rest else (k', v') :: setPair k v rest

/-- Python `k in l` for a string `k` and a list `l`: only string elements can
compare equal to `k`. -/
def containsStr (k : String) (l : List PValue) : Bool :=
  l.any fun v => match v with
    | .vStr s => s == k
    | _ => false

/-- Contiguous-substring test on character lists (Python `k in s` for
strings). -/
def isSubstr (p : List Char) : List Char → Bool
  | [] => p.isEmpty
  | c :: rest => List.isPrefixOf p (c :: rest) || isSubstr p rest

/-- Python `k in x` for a string key `k`. -/
def keyIn (k : String) : PValue → Except PyError Bool
  | .vDict d => .ok (alookup k d).isSome
  | .vStr s => .ok (isSubstr k.data s.data)
  | .vList l => .ok (containsStr k l)
  | _ => .error .typeError

/-- Python `x[k]` for a string key `k`. -/
def getItem (k : String) : PValue → Except PyError PValue
  | .vDict d =>
    match alookup k d with
    | some v => .ok v
    | none => .error .keyError
  | _ => .error .typeError

/-- Python `x.get(k)` restricted to the dict case (the script only calls it on
values already known to be dicts). -/
def dictGet (k : String) : PValue → Option PValue
  | .vDict d => alookup k d
  | _ => none

/-- `isinstance(x, list)`. -/
def isList : PValue → Bool
  | .vList _ => true
  | _ => false

/-- Whitespace stripped by Python `int(str)`. -/
def isPySpace (c : Char) : Bool :=
  c == ' ' || c == '\t' || c == '\n' || c == '\r'

/-- Numeric value of a list of decimal digits. -/
def digitsVal (cs : List Char) : Nat :=
  cs.foldl (fun a c => a * 10 + (c.toNat - 48)) 0

/-- A non-empty all-digit character list, or `none`. -/
def parseDigits (cs : List Char) : Option Nat :=
  if cs.isEmpty then none
  else if cs.all Char.isDigit then some (digitsVal cs) else none

/-- Python `int(s)` on a string: strip whitespace, optional sign, decimal
digits; `none` models `ValueError`. -/
def parsePyInt (s : String) : Option Int :=
  match ((s.data.dropWhile isPySpace).reverse.dropWhile isPySpace).reverse with
  | '-' :: rest => (parseDigits rest).map (fun n => -(n : Int))
  | '+' :: rest => (parseDigits rest).map (fun n => (n : Int))
  | cs => (parseDigits cs).map (fun n => (n : Int))

/-- Python `int(x)` on a modelled value. -/
def pyInt : PValue → IntConv
  | .vInt n => .ok n
  | .vBool b => .ok (if b then 1 else 0)
  | .vStr s =>
    match parsePyInt s with
    | some n => .ok n
    | none => .valueErr
  | _ => .typeErr

/-- Python truthiness of a modelled value. -/
def pyTruthy : PValue → Bool
  | .vNull => false
  | .vBool b => b
  | .vInt n => !(n == 0)
  | .vStr s => !(s.isEmpty)
  | .vList l => !(l.isEmpty)
  | .vDict d => !(d.isEmpty)

/-- Python `x == n` for an optional value `x` (`item.get('worktime')`, which
is `None` when the key is absent) against an int literal `n`:
bools compare numerically (`True == 1`), other non-int types compare unequal. -/
def pyEqOptInt (x : Option PValue) (n : Int) : Bool :=
  match x with
  | some (.vInt m) => m == n
  | some (.vBool b) => (if b then (1 : Int) else 0) == n
  | _ => false

/-- Left-pad a string with zeros to width `w` (Python `0`-fill). -/
def padZeros (w : Nat) (s : String) : String :=
  if s.length < w then String.mk (List.replicate (w - s.length) '0') ++ s else s

/-- Python `f"{n:0wd}"`: zero-filled decimal of total width `w`, the sign
occupying the first column for a negative value. -/
def formatInt (w : Nat) (n : Int) : String :=
  if n < 0 then "-" ++ padZeros (w - 1) (toString n.natAbs)
  else padZeros w (toString n.toNat)

/-- Source line 125: the record's zero-padded ISO date string. -/
def fmtDate (y m d : Int) : String :=
  formatInt 4 y ++ "-" ++ formatInt 2 m ++ "-" ++ formatInt 2 d

/-- The date string the scan computes for a record: `some` exactly when the
record is a dict carrying all three identity keys whose `int(...)`
conversions succeed. -/
def recordDate : PValue → Option String
  | .vDict e =>
    match alookup "year" e, alookup "month" e, alookup "day" e with
    | some vy, some vm, some vd =>
      match pyInt vy, pyInt vm, pyInt vd with
      | .ok y, .ok m, .ok d => some (fmtDate y m d)
      | _, _, _ => none
    | _, _, _ => none
  | _ => none

/-- Source lines 129-136: look the date up in the schedule, compute the new
worktime (2 for an off day, 1 for a working day, Python truthiness of the
mapped value) and update the record only when `item.get('worktime')`
differs from it under Python equality. -/
def scanItemApply (schedule : List (String × PValue)) (ds : String)
    (e : List (String × PValue)) : Except PyError (PValue × Bool) :=
  match alookup ds schedule with
  | none => .ok (.vDict e, false)
  | some off =>
    if pyEqOptInt (alookup "worktime" e) (if pyTruthy off then 2 else 1) then
      .ok (.vDict e, false)
    else
      .ok (.vDict (setPair "worktime" (.vInt (if pyTruthy off then 2 else 1)) e), true)

/-- Source lines 121-136: the `try` block. `int(item['year'])`, then
`int(item['month'])`, then `int(item['day'])`, in Python's evaluation order;
a `ValueError` is caught by line 126 and skips the record, a `TypeError`
(from subscripting a non-dict, or from `int` of a list/dict/None) escapes. -/
def scanItemConv (schedule : List (String × PValue)) (item : PValue) :
    Except PyError (PValue × Bool) :=
  match item with
  | .vDict e =>
    match alookup "year" e with
    | none => .error .keyError
    | some vy =>
      match pyInt vy with
      | .typeErr => .error .typeError
      | .valueErr => .ok (.vDict e, false)
      | .ok y =>
        match alookup "month" e with
        | none => .error .keyError
        | some vm =>
          match pyInt vm with
          | .typeErr => .error .typeError
          | .valueErr => .ok (.vDict e, false)
          | .ok m =>
            match alookup "day" e with
            | none => .error .keyError
            | some vd =>
              match pyInt vd with
              | .typeErr => .error .typeError
              | .valueErr => .ok (.vDict e, false)
              | .ok d => scanItemApply schedule (fmtDate y m d) e
  | _ => .error .typeError

/-- Source lines 117-136: one iteration of the scan loop. Line 118's
`all(k in item for k in ['year','month','day'])` short-circuits left to
right; a record failing it is skipped (`continue`). The returned flag says
whether this record was changed. -/
def scanItem (schedule : List (String × PValue)) (item : PValue) :
    Except PyError (PValue × Bool) :=
  match keyIn "year" item with
  | .error e => .error e
  | .ok false => .ok (item, false)
  | .ok true =>
    match keyIn "month" item with
    | .error e => .error e
    | .ok false => .ok (item, false)
    | .ok true =>
      match keyIn "day" item with
      | .error e => .error e
      | .ok false => .ok (item, false)
      | .ok true => scanItemConv schedule item

/-- The scan loop over `plist_content['monthData']` (source lines 114-136):
returns the rewritten record list, `updated_entries_count` and
`modified_in_this_file`. -/
def scanMonthData (schedule : List (String × PValue)) :
    List PValue → Except PyError (List PValue × Nat × Bool)
  | [] => .ok ([], 0, false)
  | item :: rest =>
    match scanItem schedule item with
    | .error e => .error e
    | .ok (item', ch) =>
      match scanMonthData schedule rest with
      | .error e => .error e
      | .ok (rest', cnt, m) => .ok (item' :: rest', (if ch then cnt + 1 else cnt), (ch || m))

/-- Outcome of `update_single_plist_file`: the returned pair
`(modified, succeeded)`, the container value the function ends with
(written to the file when a write is attempted and succeeds), and whether
a `plistlib.dump` was attempted (source lines 138-146). -/
structure UpdateResult : Type where
  modified : Bool
  succeeded : Bool
  content : PValue
  writeAttempted : Bool

/-- Source lines 110-152 of `update_single_plist_file`, starting from the
loaded `plist_content`. Line 110's `'monthData' not in plist_content or not
isinstance(plist_content['monthData'], list)` is evaluated under Python's
dynamic typing: on a list or string container the membership test runs (and
the subsequent subscript raises `TypeError` when it succeeds); on any other
non-dict the membership test itself raises `TypeError`. `writeOk` models
whether the `plistlib.dump` of lines 140-141 succeeds; mutation being
in-place in Python, the final container always carries the scanned record
list. -/
def update_single_plist_file (plist_content : PValue)
    (schedule : List (String × PValue)) (writeOk : Bool) :
    Except PyError UpdateResult :=
  match plist_content with
  | .vDict d =>
    match alookup "monthData" d with
    | some (.vList entries) =>
      match scanMonthData schedule entries with
      | .error e => .error e
      | .ok (entries', _cnt, modified) =>
        if modified then
          .ok ⟨true, writeOk, .vDict (setPair "monthData" (.vList entries') d), true⟩
        else
          .ok ⟨false, true, .vDict (setPair "monthData" (.vList entries') d), false⟩
    | some _ => .ok ⟨false, false, .vDict d, false⟩
    | none => .ok ⟨false, false, .vDict d, false⟩
  | .vList l =>
    if containsStr "monthData" l then .error .typeError
    else .ok ⟨false, false, .vList l, false⟩
  | .vStr s =>
    if isSubstr "monthData".data s.data then .error .typeError
    else .ok ⟨false, false, .vStr s, false⟩
  | _ => .error .typeError

/-- Keys a Python dict accepts: lists and dicts are unhashable
(`TypeError` on insertion). -/
def hashable : PValue → Bool
  | .vList _ => false
  | .vDict _ => false
  | _ => true

/-- Python `==` between two hashable dict keys: bools compare numerically
with ints, otherwise equality is per type. -/
def pyKeyBeq : PValue → PValue → Bool
  | .vNull, .vNull => true
  | .vBool a, .vBool b => a == b
  | .vBool a, .vInt n => (if a then (1 : Int) else 0) == n
  | .vInt n, .vBool b => n == (if b then (1 : Int) else 0)
  | .vInt a, .vInt b => a == b
  | .vStr a, .vStr b => a == b
  | _, _ => false

/-- `schedule_map[k] = v` for a Python dict keyed by arbitrary hashable
values: replace the value at the first key comparing equal (the stored key
object is kept), append otherwise. -/
def dInsert (k v : PValue) : List (PValue × PValue) → List (PValue × PValue)
  | [] => [(k, v)]
  | (k', v') :: rest => if pyKeyBeq k' k then (k', v) :: rest else (k', v') :: dInsert k v rest

/-- Source lines 33-37: the loop filling `schedule_map`. An entry with both
fields present is inserted (a `TypeError` on an unhashable date key
escapes to the catch-all handler); an entry failing the field test is
skipped with a warning; a membership test or subscript on an unsuitable
entry raises, which the catch-all handler turns into a `None` result. -/
def buildMap : List PValue → List (PValue × PValue) → Except PyError (List (PValue × PValue))
  | [], m => .ok m
  | di :: rest, m =>
    match keyIn "date" di with
    | .error e => .error e
    | .ok false => buildMap rest m
    | .ok true =>
      match keyIn "isOffDay" di with
      | .error e => .error e
      | .ok false => buildMap rest m
      | .ok true =>
        match getItem "date" di, getItem "isOffDay" di with
        | .ok k, .ok v =>
          if hashable k then buildMap rest (dInsert k v m)
          else .error .typeError
        | .error e, _ => .error e
        | _, .error e => .error e

/-- Source lines 31-45 of `fetch_holiday_data`, from the parsed JSON document
on: build the schedule map when `'days'` holds a list, return `None` when the
list field is missing/not a list or the map comes out empty. A raised
exception is separated out so `fetch_holiday_data` can model the
`except Exception` catch-all of lines 58-60. -/
def fetchCore (doc : PValue) : Except PyError (Option (List (PValue × PValue))) :=
  match keyIn "days" doc with
  | .error e => .error e
  | .ok false => .ok none
  | .ok true =>
    match getItem "days" doc with
    | .error e => .error e
    | .ok (.vList days) =>
      match buildMap days [] with
      | .error e => .error e
      | .ok m => if m.isEmpty then .ok none else .ok (some m)
    | .ok _ => .ok none

/-- `fetch_holiday_data` from the parsed document on: every raised exception
is caught by the handlers of lines 46-60 and becomes a `None` result. -/
def fetch_holiday_data (doc : PValue) : Option (List (PValue × PValue)) :=
  match fetchCore doc with
  | .ok r => r
  | .error _ => none

/-- The `monthData` record list of a loaded container, when it is a dict
holding one. -/
def monthDataOf : PValue → Option (List PValue)
  | .vDict d =>
    match alookup "monthData" d with
    | some (.vList l) => some l
    | _ => none
  | _ => none

/-- Lookup of a top-level key of the container. -/
def rootGet (k : String) : PValue → Option PValue
  | .vDict d => alookup k d
  | _ => none

/-- An entry of the `days` list that passes the field test of source line 34
(`'date' in day_info and 'isOffDay' in day_info`). -/
def entryUsable (di : PValue) : Bool :=
  match keyIn "date" di, keyIn "isOffDay" di with
  | .ok true, .ok true => true
  | _, _ => false

/-- The `(date, isOffDay)` pairs of the entries of a `days` list that are
dicts carrying both required fields, in list order. -/
def validPairs : List PValue → List (PValue × PValue)
  | [] => []
  | .vDict e :: rest =>
    match alookup "date" e, alookup "isOffDay" e with
    | some k, some v => (k, v) :: validPairs rest
    | _, _ => validPairs rest
  | _ :: rest => validPairs rest

/-- Insertion of a pair list into a Python-dict model, left to right. -/
def insertAll (ps : List (PValue × PValue)) (m : List (PValue × PValue)) :
    List (PValue × PValue) :=
  ps.foldl (fun acc p => dInsert p.1 p.2 acc) m

/-- The per-record relation that patching establishes (claim C1, amended):
whenever the record's date string is computed and found in the schedule, the
resulting record's worktime compares equal, under Python `==`, to the code
computed from the mapped flag; when the date string is computed but absent
from the schedule, the record is untouched. -/
def patchStatusRel (schedule : List (String × PValue)) (item item' : PValue) : Prop :=
  ∀ ds, recordDate item = some ds →
    (∀ off, alookup ds schedule = some off →
      pyEqOptInt (dictGet "worktime" item') (if pyTruthy off then 2 else 1) = true) ∧
    (alookup ds schedule = none → item' = item)

/-- The frame relation between a record and its patched form: every key other
than `worktime` reads the same. -/
def frameRel (item item' : PValue) : Prop :=
  ∀ k, k ≠ "worktime" → dictGet k item' = dictGet k item

/-! ### Association-list lemmas -/

theorem alookup_setPair_self {α : Type} (k : String) (v : α) (d : List (String × α)) :
    alookup k (setPair k v d) = some v := by
  induction d with
  | nil => simp [alookup, setPair]
  | cons p rest ih =>
    obtain ⟨k', v'⟩ := p
    cases hk : (k' == k) with
    | true => simp [setPair, alookup, hk]
    | false => simpa [setPair, alookup, hk] using ih

theorem alookup_setPair_ne {α : Type} (k q : String) (v : α) (d : List (String × α))
    (h : q ≠ k) : alookup q (setPair k v d) = alookup q d := by
  have hb : (k == q) = false := by
    rw [beq_eq_false_iff_ne]
    exact h.symm
  induction d with
  | nil => simp [alookup, setPair, hb]
  | cons p rest ih =>
    obtain ⟨k', v'⟩ := p
    cases hk : (k' == k) with
    | true =>
      have hkk : k' = k := eq_of_beq hk
      simp [setPair, alookup, hk, hkk, hb]
    | false => simp [setPair, alookup, hk, ih]

theorem setPair_of_alookup {α : Type} {k : String} {v : α} {d : List (String × α)}
    (h : alookup k d = some v) : setPair k v d = d := by
  induction d with
  | nil => simp [alookup] at h
  | cons p rest ih =>
    obtain ⟨k', v'⟩ := p
    cases hk : (k' == k) with
    | true =>
      rw [alookup, if_pos hk] at h
      cases h
      simp [setPair, hk]
    | false =>
      rw [alookup, if_neg (by simp [hk])] at h
      simp [setPair, hk, ih h]

theorem recordDate_setPair_worktime (v : PValue) (e : List (String × PValue)) :
    recordDate (.vDict (setPair "worktime" v e)) = recordDate (.vDict e) := by
  simp only [recordDate,
    alookup_setPair_ne "worktime" "year" v e (by decide),
    alookup_setPair_ne "worktime" "month" v e (by decide),
    alookup_setPair_ne "worktime" "day" v e (by decide)]

/-! ### Inversion lemmas for the per-record scan -/

theorem scanItem_of_recordDate (s : List (String × PValue)) (e : List (String × PValue))
    (ds : String) (h : recordDate (.vDict e) = some ds) :
    scanItem s (.vDict e) = scanItemApply s ds e := by
  rw [recordDate] at h
  cases hy : alookup "year" e with
  | none => simp only [hy] at h; exact Option.noConfusion h
  | some vy =>
    cases hm : alookup "month" e with
    | none => simp only [hy, hm] at h; exact Option.noConfusion h
    | some vm =>
      cases hd : alookup "day" e with
      | none => simp only [hy, hm, hd] at h; exact Option.noConfusion h
      | some vd =>
        simp only [hy, hm, hd] at h
        cases py : pyInt vy with
        | valueErr => simp only [py] at h; exact Option.noConfusion h
        | typeErr => simp only [py] at h; exact Option.noConfusion h
        | ok y =>
          cases pm : pyInt vm with
          | valueErr => simp only [py, pm] at h; exact Option.noConfusion h
          | typeErr => simp only [py, pm] at h; exact Option.noConfusion h
          | ok m =>
            cases pd : pyInt vd with
            | valueErr => simp only [py, pm, pd] at h; exact Option.noConfusion h
            | typeErr => simp only [py, pm, pd] at h; exact Option.noConfusion h
            | ok dd =>
              simp only [py, pm, pd, Option.some.injEq] at h
              subst h
              simp [scanItem, keyIn, hy, hm, hd, scanItemConv, py, pm, pd]

theorem scanItem_ok_unchanged {s : List (String × PValue)} {a b : PValue} {ch : Bool}
    (h : scanItem s a = .ok (b, ch)) (hrd : recordDate a = none) :
    b = a ∧ ch = false := by
  cases a with
  | vNull => simp [scanItem, keyIn] at h
  | vBool b0 => simp [scanItem, keyIn] at h
  | vInt n => simp [scanItem, keyIn] at h
  | vStr s0 =>
    cases h1 : isSubstr "year".data s0.data with
    | false =>
      simp only [scanItem, keyIn, h1] at h
      simp only [Except.ok.injEq, Prod.mk.injEq] at h
      exact ⟨h.1.symm, h.2.symm⟩
    | true =>
      cases h2 : isSubstr "month".data s0.data with
      | false =>
        simp only [scanItem, keyIn, h1, h2] at h
        simp only [Except.ok.injEq, Prod.mk.injEq] at h
        exact ⟨h.1.symm, h.2.symm⟩
      | true =>
        cases h3 : isSubstr "day".data s0.data with
        | false =>
          simp only [scanItem, keyIn, h1, h2, h3] at h
          simp only [Except.ok.injEq, Prod.mk.injEq] at h
          exact ⟨h.1.symm, h.2.symm⟩
        | true => simp [scanItem, keyIn, scanItemConv, h1, h2, h3] at h
  | vList l =>
    cases h1 : containsStr "year" l with
    | false =>
      simp only [scanItem, keyIn, h1] at h
      simp only [Except.ok.injEq, Prod.mk.injEq] at h
      exact ⟨h.1.symm, h.2.symm⟩
    | true =>
      cases h2 : containsStr "month" l with
      | false =>
        simp only [scanItem, keyIn, h1, h2] at h
        simp only [Except.ok.injEq, Prod.mk.injEq] at h
        exact ⟨h.1.symm, h.2.symm⟩
      | true =>
        cases h3 : containsStr "day" l with
        | false =>
          simp only [scanItem, keyIn, h1, h2, h3] at h
          simp only [Except.ok.injEq, Prod.mk.injEq] at h
          exact ⟨h.1.symm, h.2.symm⟩
        | true => simp [scanItem, keyIn, scanItemConv, h1, h2, h3] at h
  | vDict e =>
    cases hy : alookup "year" e with
    | none =>
      simp only [scanItem, keyIn, hy, Option.isSome_none] at h
      simp only [Except.ok.injEq, Prod.mk.injEq] at h
      exact ⟨h.1.symm, h.2.symm⟩
    | some vy =>
      cases hm : alookup "month" e with
      | none =>
        simp only [scanItem, keyIn, hy, hm, Option.isSome_some, Option.isSome_none] at h
        simp only [Except.ok.injEq, Prod.mk.injEq] at h
        exact ⟨h.1.symm, h.2.symm⟩
      | some vm =>
        cases hd : alookup "day" e with
        | none =>
          simp only [scanItem, keyIn, hy, hm, hd, Option.isSome_some, Option.isSome_none] at h
          simp only [Except.ok.injEq, Prod.mk.injEq] at h
          exact ⟨h.1.symm, h.2.symm⟩
        | some vd =>
          simp only [scanItem, keyIn, hy, hm, hd, Option.isSome_some, scanItemConv] at h
          cases py : pyInt vy with
          | typeErr => simp only [py] at h; exact Except.noConfusion h
          | valueErr =>
            simp only [py] at h
            simp only [Except.ok.injEq, Prod.mk.injEq] at h
            exact ⟨h.1.symm, h.2.symm⟩
          | ok y =>
            cases pm : pyInt vm with
            | typeErr => simp only [py, pm] at h; exact Except.noConfusion h
            | valueErr =>
              simp only [py, pm] at h
              simp only [Except.ok.injEq, Prod.mk.injEq] at h
              exact ⟨h.1.symm, h.2.symm⟩
            | ok m =>
              cases pd : pyInt vd with
              | typeErr => simp only [py, pm, pd] at h; exact Except.noConfusion h
              | valueErr =>
                simp only [py, pm, pd] at h
                simp only [Except.ok.injEq, Prod.mk.injEq] at h
                exact ⟨h.1.symm, h.2.symm⟩
              | ok dd =>
                rw [recordDate] at hrd
                simp only [hy, hm, hd, py, pm, pd] at hrd
                exact Option.noConfusion hrd

theorem recordDate_some_vDict {a : PValue} {ds : String} (h : recordDate a = some ds) :
    ∃ e, a = .vDict e := by
  cases a with
  | vDict e => exact ⟨e, rfl⟩
  | vNull => simp [recordDate] at h
  | vBool b => simp [recordDate] at h
  | vInt n => simp [recordDate] at h
  | vStr s => simp [recordDate] at h
  | vList l => simp [recordDate] at h

theorem scanItemApply_ok_inv {s : List (String × PValue)} {ds : String}
    {e : List (String × PValue)} {b : PValue} {ch : Bool}
    (h : scanItemApply s ds e = .ok (b, ch)) :
    (b = .vDict e ∧ ch = false ∧ (∀ off, alookup ds s = some off →
        pyEqOptInt (alookup "worktime" e) (if pyTruthy off then 2 else 1) = true)) ∨
    (∃ off, alookup ds s = some off ∧
        pyEqOptInt (alookup "worktime" e) (if pyTruthy off then 2 else 1) = false ∧
        b = .vDict (setPair "worktime" (.vInt (if pyTruthy off then 2 else 1)) e) ∧
        ch = true) := by
  rw [scanItemApply] at h
  cases hoff : alookup ds s with
  | none =>
    simp only [hoff] at h
    simp only [Except.ok.injEq, Prod.mk.injEq] at h
    refine Or.inl ⟨h.1.symm, h.2.symm, fun off hc => ?_⟩
    exact absurd hc (by simp)
  | some off =>
    simp only [hoff] at h
    cases hq : pyEqOptInt (alookup "worktime" e) (if pyTruthy off then 2 else 1) with
    | true =>
      simp only [hq, if_true] at h
      simp only [Except.ok.injEq, Prod.mk.injEq] at h
      refine Or.inl ⟨h.1.symm, h.2.symm, fun off' hc => ?_⟩
      cases Option.some.inj hc
      exact hq
    | false =>
      simp only [hq, Bool.false_eq_true, if_false] at h
      simp only [Except.ok.injEq, Prod.mk.injEq] at h
      exact Or.inr ⟨off, rfl, hq, h.1.symm, h.2.symm⟩

theorem scanItem_false_eq {s : List (String × PValue)} {a b : PValue}
    (h : scanItem s a = .ok (b, false)) : b = a := by
  cases hrd : recordDate a with
  | none => exact (scanItem_ok_unchanged h hrd).1
  | some ds =>
    obtain ⟨e, rfl⟩ := recordDate_some_vDict hrd
    rw [scanItem_of_recordDate s e ds hrd] at h
    rcases scanItemApply_ok_inv h with ⟨hb, -, -⟩ | ⟨off, -, -, -, hch⟩
    · exact hb
    · exact absurd hch (by simp)

theorem scanItem_idem {s : List (String × PValue)} {a b : PValue} {ch : Bool}
    (h : scanItem s a = .ok (b, ch)) : scanItem s b = .ok (b, false) := by
  cases hrd : recordDate a with
  | none =>
    obtain ⟨hb, hch⟩ := scanItem_ok_unchanged h hrd
    rw [hb, hch] at h
    rw [hb]
    exact h
  | some ds =>
    obtain ⟨e, rfl⟩ := recordDate_some_vDict hrd
    rw [scanItem_of_recordDate s e ds hrd] at h
    rcases scanItemApply_ok_inv h with ⟨rfl, -, hq⟩ | ⟨off, hoff, hq, rfl, -⟩
    · rw [scanItem_of_recordDate s e ds hrd, scanItemApply]
      cases hoff : alookup ds s with
      | none => simp
      | some off => simp [hq off hoff]
    · have hrd' : recordDate
          (.vDict (setPair "worktime" (.vInt (if pyTruthy off then 2 else 1)) e)) = some ds := by
        rw [recordDate_setPair_worktime]
        exact hrd
      rw [scanItem_of_recordDate s _ ds hrd', scanItemApply, hoff, alookup_setPair_self]
      simp [pyEqOptInt]

theorem scanItem_frame {s : List (String × PValue)} {a b : PValue} {ch : Bool}
    (h : scanItem s a = .ok (b, ch)) : frameRel a b := by
  intro k hk
  cases hrd : recordDate a with
  | none =>
    rw [(scanItem_ok_unchanged h hrd).1]
  | some ds =>
    obtain ⟨e, rfl⟩ := recordDate_some_vDict hrd
    rw [scanItem_of_recordDate s e ds hrd] at h
    rcases scanItemApply_ok_inv h with ⟨rfl, -, -⟩ | ⟨off, -, -, rfl, -⟩
    · rfl
    · simp only [dictGet]
      exact alookup_setPair_ne _ _ _ _ hk

theorem scanItem_patchRel {s : List (String × PValue)} {a b : PValue} {ch : Bool}
    (h : scanItem s a = .ok (b, ch)) : patchStatusRel s a b := by
  intro ds hds
  obtain ⟨e, rfl⟩ := recordDate_some_vDict hds
  rw [scanItem_of_recordDate s e ds hds] at h
  rcases scanItemApply_ok_inv h with ⟨rfl, -, hq⟩ | ⟨off, hoff, hq, rfl, -⟩
  · refine ⟨fun off hoff => ?_, fun _ => rfl⟩
    simpa [dictGet] using hq off hoff
  · refine ⟨fun off' hoff' => ?_, fun hnone => ?_⟩
    · cases (hoff.symm.trans hoff')
      simp [dictGet, alookup_setPair_self, pyEqOptInt]
    · rw [hnone] at hoff
      exact Option.noConfusion hoff

/-! ### Lemmas on the scan of the whole record list -/

theorem scanMonthData_false_eq {s : List (String × PValue)} {es es' : List PValue} {cnt : Nat}
    (h : scanMonthData s es = .ok (es', cnt, false)) : es' = es := by
  induction es generalizing es' cnt with
  | nil =>
    rw [scanMonthData] at h
    simp only [Except.ok.injEq, Prod.mk.injEq] at h
    exact h.1.symm
  | cons item rest ih =>
    rw [scanMonthData] at h
    cases hitem : scanItem s item with
    | error e => simp only [hitem] at h; exact Except.noConfusion h
    | ok p =>
      obtain ⟨item', ch⟩ := p
      simp only [hitem] at h
      cases hrest : scanMonthData s rest with
      | error e => simp only [hrest] at h; exact Except.noConfusion h
      | ok q =>
        obtain ⟨rest', cnt0, m0⟩ := q
        simp only [hrest] at h
        simp only [Except.ok.injEq, Prod.mk.injEq] at h
        obtain ⟨h1, -, h3⟩ := h
        obtain ⟨hch, hm0⟩ := Bool.or_eq_false_iff.mp h3
        subst hch
        subst hm0
        rw [scanItem_false_eq hitem] at h1
        rw [← h1, ih hrest]

theorem scanMonthData_idem {s : List (String × PValue)} {es es' : List PValue} {cnt : Nat}
    {m : Bool} (h : scanMonthData s es = .ok (es', cnt, m)) :
    scanMonthData s es' = .ok (es', 0, false) := by
  induction es generalizing es' cnt m with
  | nil =>
    rw [scanMonthData] at h
    simp only [Except.ok.injEq, Prod.mk.injEq] at h
    rw [← h.1]
    rfl
  | cons item rest ih =>
    rw [scanMonthData] at h
    cases hitem : scanItem s item with
    | error e => simp only [hitem] at h; exact Except.noConfusion h
    | ok p =>
      obtain ⟨item', ch⟩ := p
      simp only [hitem] at h
      cases hrest : scanMonthData s rest with
      | error e => simp only [hrest] at h; exact Except.noConfusion h
      | ok q =>
        obtain ⟨rest', cnt0, m0⟩ := q
        simp only [hrest] at h
        simp only [Except.ok.injEq, Prod.mk.injEq] at h
        rw [← h.1]
        rw [scanMonthData]
        simp only [scanItem_idem hitem, ih hrest]
        simp

theorem scanMonthData_forall₂ {s : List (String × PValue)} {es es' : List PValue} {cnt : Nat}
    {m : Bool} (h : scanMonthData s es = .ok (es', cnt, m)) :
    List.Forall₂ (fun a b => ∃ ch, scanItem s a = .ok (b, ch)) es es' := by
  induction es generalizing es' cnt m with
  | nil =>
    rw [scanMonthData] at h
    simp only [Except.ok.injEq, Prod.mk.injEq] at h
    rw [← h.1]
    exact List.Forall₂.nil
  | cons item rest ih =>
    rw [scanMonthData] at h
    cases hitem : scanItem s item with
    | error e => simp only [hitem] at h; exact Except.noConfusion h
    | ok p =>
      obtain ⟨item', ch⟩ := p
      simp only [hitem] at h
      cases hrest : scanMonthData s rest with
      | error e => simp only [hrest] at h; exact Except.noConfusion h
      | ok q =>
        obtain ⟨rest', cnt0, m0⟩ := q
        simp only [hrest] at h
        simp only [Except.ok.injEq, Prod.mk.injEq] at h
        rw [← h.1]
        exact List.Forall₂.cons ⟨ch, hitem⟩ (ih hrest)

theorem scanMonthData_mem_true {s : List (String × PValue)} {es es' : List PValue} {cnt : Nat}
    {m : Bool} {a b : PValue} (h : scanMonthData s es = .ok (es', cnt, m))
    (hmem : a ∈ es) (ha : scanItem s a = .ok (b, true)) : m = true := by
  induction es generalizing es' cnt m with
  | nil => exact absurd hmem (List.not_mem_nil a)
  | cons item rest ih =>
    rw [scanMonthData] at h
    cases hitem : scanItem s item with
    | error e => simp only [hitem] at h; exact Except.noConfusion h
    | ok p =>
      obtain ⟨item', ch⟩ := p
      simp only [hitem] at h
      cases hrest : scanMonthData s rest with
      | error e => simp only [hrest] at h; exact Except.noConfusion h
      | ok q =>
        obtain ⟨rest', cnt0, m0⟩ := q
        simp only [hrest] at h
        simp only [Except.ok.injEq, Prod.mk.injEq] at h
        rw [← h.2.2]
        rcases List.mem_cons.mp hmem with rfl | hmem'
        · rw [hitem] at ha
          simp only [Except.ok.injEq, Prod.mk.injEq] at ha
          rw [ha.2]
          simp
        · rw [ih hrest hmem']
          simp

/-! ### Characterization of the update function -/

theorem update_eq_of_scan {d : List (String × PValue)} {s : List (String × PValue)}
    {es es' : List PValue} {cnt : Nat} {m : Bool} {w : Bool}
    (hmd : alookup "monthData" d = some (.vList es))
    (hscan : scanMonthData s es = .ok (es', cnt, m)) :
    update_single_plist_file (.vDict d) s w =
      .ok ⟨m, (if m then w else true), .vDict (setPair "monthData" (.vList es') d), m⟩ := by
  rw [update_single_plist_file]
  simp only [hmd, hscan]
  cases m with
  | true => simp
  | false => simp

theorem update_ok_inv {c : PValue} {s : List (String × PValue)} {w : Bool} {r : UpdateResult}
    (h : update_single_plist_file c s w = .ok r) :
    (monthDataOf c = none ∧ r = ⟨false, false, c, false⟩) ∨
    (∃ d es es' cnt m, c = .vDict d ∧ alookup "monthData" d = some (.vList es) ∧
      scanMonthData s es = .ok (es', cnt, m) ∧
      r = ⟨m, (if m then w else true), .vDict (setPair "monthData" (.vList es') d), m⟩) := by
  cases c with
  | vNull => simp [update_single_plist_file] at h
  | vBool b => simp [update_single_plist_file] at h
  | vInt n => simp [update_single_plist_file] at h
  | vStr s0 =>
    rw [update_single_plist_file] at h
    cases hss : isSubstr "monthData".data s0.data with
    | true => simp only [hss, if_true] at h; exact Except.noConfusion h
    | false =>
      simp only [hss, Bool.false_eq_true, if_false] at h
      exact Or.inl ⟨rfl, (Except.ok.inj h).symm⟩
  | vList l =>
    rw [update_single_plist_file] at h
    cases hss : containsStr "monthData" l with
    | true => simp only [hss, if_true] at h; exact Except.noConfusion h
    | false =>
      simp only [hss, Bool.false_eq_true, if_false] at h
      exact Or.inl ⟨rfl, (Except.ok.inj h).symm⟩
  | vDict d =>
    rw [update_single_plist_file] at h
    cases hmd : alookup "monthData" d with
    | none =>
      simp only [hmd] at h
      exact Or.inl ⟨by simp [monthDataOf, hmd], (Except.ok.inj h).symm⟩
    | some md =>
      cases md with
      | vNull =>
        simp only [hmd] at h
        exact Or.inl ⟨by simp [monthDataOf, hmd], (Except.ok.inj h).symm⟩
      | vBool b =>
        simp only [hmd] at h
        exact Or.inl ⟨by simp [monthDataOf, hmd], (Except.ok.inj h).symm⟩
      | vInt n =>
        simp only [hmd] at h
        exact Or.inl ⟨by simp [monthDataOf, hmd], (Except.ok.inj h).symm⟩
      | vStr s1 =>
        simp only [hmd] at h
        exact Or.inl ⟨by simp [monthDataOf, hmd], (Except.ok.inj h).symm⟩
      | vDict d1 =>
        simp only [hmd] at h
        exact Or.inl ⟨by simp [monthDataOf, hmd], (Except.ok.inj h).symm⟩
      | vList es =>
        simp only [hmd] at h
        cases hscan : scanMonthData s es with
        | error e => simp only [hscan] at h; exact Except.noConfusion h
        | ok q =>
          obtain ⟨es', cnt, m⟩ := q
          simp only [hscan] at h
          refine Or.inr ⟨d, es, es', cnt, m, rfl, hmd, hscan, ?_⟩
          cases m with
          | true =>
            simp only [if_true] at h ⊢
            exact (Except.ok.inj h).symm
          | false =>
            simp only [Bool.false_eq_true, if_false] at h ⊢
            exact (Except.ok.inj h).symm

/-! ### Lemmas on the schedule fetch -/

theorem buildMap_unusable {days : List PValue} {m : List (PValue × PValue)}
    (h : ∀ di ∈ days, entryUsable di = false) :
    buildMap days m = .ok m ∨ ∃ e, buildMap days m = .error e := by
  induction days generalizing m with
  | nil => exact Or.inl rfl
  | cons di rest ih =>
    have hdi := h di (List.mem_cons_self di rest)
    have hrest : ∀ x ∈ rest, entryUsable x = false :=
      fun x hx => h x (List.mem_cons_of_mem di hx)
    rw [buildMap]
    cases k1 : keyIn "date" di with
    | error e => exact Or.inr ⟨e, rfl⟩
    | ok b1 =>
      cases b1 with
      | false => exact ih hrest
      | true =>
        cases k2 : keyIn "isOffDay" di with
        | error e => exact Or.inr ⟨e, rfl⟩
        | ok b2 =>
          cases b2 with
          | false => exact ih hrest
          | true =>
            rw [entryUsable, k1, k2] at hdi
            exact Bool.noConfusion hdi

theorem dInsert_ne_nil (k v : PValue) (m : List (PValue × PValue)) :
    dInsert k v m ≠ [] := by
  cases m with
  | nil => simp [dInsert]
  | cons p rest =>
    obtain ⟨k', v'⟩ := p
    rw [dInsert]
    cases hk : pyKeyBeq k' k with
    | true => simp
    | false => simp

theorem insertAll_ne_nil {ps : List (PValue × PValue)} {m : List (PValue × PValue)}
    (h : m ≠ []) : insertAll ps m ≠ [] := by
  induction ps generalizing m with
  | nil => exact h
  | cons p rest ih => exact ih (dInsert_ne_nil p.1 p.2 m)

theorem insertAll_validPairs_ne_nil {days : List PValue}
    (h : validPairs days ≠ []) : insertAll (validPairs days) [] ≠ [] := by
  cases hv : validPairs days with
  | nil => exact absurd hv h
  | cons p ps =>
    rw [insertAll, List.foldl_cons]
    exact insertAll_ne_nil (dInsert_ne_nil p.1 p.2 [])

theorem buildMap_valid {days : List PValue}
    (hdicts : ∀ di ∈ days, ∃ e, di = .vDict e)
    (hhash : ∀ p ∈ validPairs days, hashable p.1 = true) :
    ∀ m, buildMap days m = .ok (insertAll (validPairs days) m) := by
  induction days with
  | nil => intro m; rfl
  | cons di rest ih =>
    intro m
    obtain ⟨e, rfl⟩ := hdicts di (List.mem_cons_self di rest)
    have hdicts' : ∀ x ∈ rest, ∃ e, x = .vDict e :=
      fun x hx => hdicts x (List.mem_cons_of_mem _ hx)
    rw [buildMap]
    cases hdt : alookup "date" e with
    | none =>
      simp only [keyIn, hdt, Option.isSome_none]
      have : validPairs (.vDict e :: rest) = validPairs rest := by
        rw [validPairs, hdt]
      rw [this] at hhash ⊢
      exact ih hdicts' hhash m
    | some k =>
      simp only [keyIn, hdt, Option.isSome_some]
      cases hod : alookup "isOffDay" e with
      | none =>
        simp only [hod, Option.isSome_none]
        have : validPairs (.vDict e :: rest) = validPairs rest := by
          rw [validPairs, hdt, hod]
        rw [this] at hhash ⊢
        exact ih hdicts' hhash m
      | some v =>
        simp only [hod, Option.isSome_some]
        have hvp : validPairs (.vDict e :: rest) = (k, v) :: validPairs rest := by
          rw [validPairs, hdt, hod]
        have hhash' : ∀ p ∈ validPairs rest, hashable p.1 = true := by
          intro p hp
          refine hhash p ?_
          rw [hvp]
          exact List.mem_cons_of_mem _ hp
        have hk : hashable k = true := by
          refine hhash (k, v) ?_
          rw [hvp]
          exact List.mem_cons_self _ _
        simp only [getItem, hdt, hod, hk, if_true]
        rw [hvp, insertAll, List.foldl_cons]
        exact ih hdicts' hhash' (dInsert k v m)

/-! ### Claims -/

/-- C1 counterexample: a record for 2025-01-02 whose pre-existing worktime is the
boolean `True` is left untouched by a successful patch under the mapping
`{"2025-01-02": false}` (Python `True == 1` makes the comparison at source line
133 succeed), so its post-patch status is not the integer 1 the claim demands. -/
theorem c1_counterexample :
    update_single_plist_file
        (.vDict [("monthData", .vList [.vDict [("year", .vInt 2025), ("month", .vInt 1),
          ("day", .vInt 2), ("worktime", .vBool true)]])])
        [("2025-01-02", .vBool false)] true =
      .ok ⟨false, true,
        .vDict [("monthData", .vList [.vDict [("year", .vInt 2025), ("month", .vInt 1),
          ("day", .vInt 2), ("worktime", .vBool true)]])], false⟩ ∧
    recordDate (.vDict [("year", .vInt 2025), ("month", .vInt 1), ("day", .vInt 2),
        ("worktime", .vBool true)]) = some "2025-01-02" ∧
    alookup "2025-01-02" [("2025-01-02", (PValue.vBool false))] = some (.vBool false) ∧
    dictGet "worktime" (.vDict [("year", .vInt 2025), ("month", .vInt 1), ("day", .vInt 2),
        ("worktime", .vBool true)]) = some (.vBool true) ∧
    PValue.vBool true ≠ PValue.vInt 1 :=
  ⟨rfl, rfl, rfl, rfl, fun hcontra => PValue.noConfusion hcontra⟩

/-- C1 (amended): after a successful patch, every day record whose computed date
string is a key of the schedule mapping has a worktime that compares equal,
under Python `==`, to 2 when the mapped flag is truthy and to 1 otherwise (in
particular a freshly written status is the integer code, while a pre-existing
boolean `True` is accepted for code 1 and left as-is); every record whose date
string is absent from the mapping is left unchanged. -/
theorem c1_amended {c : PValue} {s : List (String × PValue)} {w : Bool} {r : UpdateResult}
    {es es' : List PValue}
    (h : update_single_plist_file c s w = .ok r) (hsucc : r.succeeded = true)
    (hes : monthDataOf c = some es) (hes' : monthDataOf r.content = some es') :
    List.Forall₂ (patchStatusRel s) es es' := by
  rcases update_ok_inv h with ⟨hnone, -⟩ | ⟨d, es0, es0', cnt, m, rfl, hmd, hscan, rfl⟩
  · rw [hnone] at hes
    exact Option.noConfusion hes
  · have hes0 : es = es0 := by
      rw [monthDataOf, hmd] at hes
      exact (Option.some.inj hes).symm
    have hes0' : es' = es0' := by
      simp only [monthDataOf, alookup_setPair_self, Option.some.injEq] at hes'
      exact hes'.symm
    subst hes0
    subst hes0'
    exact List.Forall₂.imp (fun a b hab => hab.elim fun ch hch => scanItem_patchRel hch)
      (scanMonthData_forall₂ hscan)

/-- C1 witness: the amended claim at a concrete input — the mapping
`{"2025-01-01": true}` patches a record with worktime 1 to worktime 2. -/
theorem c1_amended_witness :
    List.Forall₂ (patchStatusRel [("2025-01-01", PValue.vBool true)])
      [.vDict [("year", .vInt 2025), ("month", .vInt 1), ("day", .vInt 1), ("worktime", .vInt 1)]]
      [.vDict [("year", .vInt 2025), ("month", .vInt 1), ("day", .vInt 1), ("worktime", .vInt 2)]] :=
  c1_amended
    (c := .vDict [("monthData", .vList [.vDict [("year", .vInt 2025), ("month", .vInt 1),
      ("day", .vInt 1), ("worktime", .vInt 1)]])])
    (w := true)
    (r := ⟨true, true, .vDict [("monthData", .vList [.vDict [("year", .vInt 2025),
      ("month", .vInt 1), ("day", .vInt 1), ("worktime", .vInt 2)]])], true⟩)
    rfl rfl rfl rfl

/-- C2: patching is idempotent — if a patch succeeds, running the same mapping
again on the resulting container reports modified = false and succeeded = true
(and leaves the container as it is, attempting no write). -/
theorem c2_idempotent {c : PValue} {s : List (String × PValue)} {w1 w2 : Bool}
    {r : UpdateResult}
    (h : update_single_plist_file c s w1 = .ok r) (hsucc : r.succeeded = true) :
    update_single_plist_file r.content s w2 = .ok ⟨false, true, r.content, false⟩ := by
  rcases update_ok_inv h with ⟨-, rfl⟩ | ⟨d, es, es', cnt, m, rfl, hmd, hscan, rfl⟩
  · simp at hsucc
  · have hmd2 : alookup "monthData" (setPair "monthData" (.vList es') d) = some (.vList es') :=
      alookup_setPair_self _ _ _
    have hscan2 : scanMonthData s es' = .ok (es', 0, false) := scanMonthData_idem hscan
    have h2 := update_eq_of_scan (w := w2) hmd2 hscan2
    rw [setPair_of_alookup hmd2] at h2
    simpa using h2

/-- C2 witness: the idempotence claim at a concrete input — a second run on the
already-patched container reports (false, true). -/
theorem c2_witness :
    update_single_plist_file
        (.vDict [("monthData", .vList [.vDict [("year", .vInt 2025), ("month", .vInt 1),
          ("day", .vInt 1), ("worktime", .vInt 2)]])])
        [("2025-01-01", .vBool true)] true =
      .ok ⟨false, true,
        .vDict [("monthData", .vList [.vDict [("year", .vInt 2025), ("month", .vInt 1),
          ("day", .vInt 1), ("worktime", .vInt 2)]])], false⟩ :=
  @c2_idempotent
    (.vDict [("monthData", .vList [.vDict [("year", .vInt 2025), ("month", .vInt 1),
      ("day", .vInt 1), ("worktime", .vInt 1)]])])
    [("2025-01-01", .vBool true)] true true
    ⟨true, true, .vDict [("monthData", .vList [.vDict [("year", .vInt 2025),
      ("month", .vInt 1), ("day", .vInt 1), ("worktime", .vInt 2)]])], true⟩
    rfl rfl

/-- C3: if the scan over the day-record list changes no record, the patch
returns (modified = false, succeeded = true), attempts no write, and the
container is left exactly as loaded. -/
theorem c3_no_change_no_write {d : List (String × PValue)} {s : List (String × PValue)}
    {w : Bool} {es es' : List PValue} {cnt : Nat}
    (hmd : alookup "monthData" d = some (.vList es))
    (hscan : scanMonthData s es = .ok (es', cnt, false)) :
    update_single_plist_file (.vDict d) s w = .ok ⟨false, true, .vDict d, false⟩ := by
  have h := update_eq_of_scan (w := w) hmd hscan
  rw [scanMonthData_false_eq hscan] at h
  rw [setPair_of_alookup hmd] at h
  simpa using h

/-- C3 witness: the no-change claim at a concrete input — a record already at
worktime 2 for an off day is not rewritten. -/
theorem c3_witness :
    update_single_plist_file
        (.vDict [("monthData", .vList [.vDict [("year", .vInt 2025), ("month", .vInt 1),
          ("day", .vInt 1), ("worktime", .vInt 2)]])])
        [("2025-01-01", .vBool true)] true =
      .ok ⟨false, true,
        .vDict [("monthData", .vList [.vDict [("year", .vInt 2025), ("month", .vInt 1),
          ("day", .vInt 1), ("worktime", .vInt 2)]])], false⟩ :=
  c3_no_change_no_write rfl rfl

/-- C4: a loaded container without a `monthData` key, or whose `monthData`
value is not a list, makes the patch return (modified = false,
succeeded = false) without raising and without attempting a write. -/
theorem c4_missing_monthdata {d : List (String × PValue)} {s : List (String × PValue)}
    {w : Bool}
    (h : alookup "monthData" d = none ∨
      ∃ v, alookup "monthData" d = some v ∧ isList v = false) :
    update_single_plist_file (.vDict d) s w = .ok ⟨false, false, .vDict d, false⟩ := by
  rw [update_single_plist_file]
  rcases h with hmd | ⟨v, hmd, hv⟩
  · simp only [hmd]
  · cases v with
    | vList l => rw [isList] at hv; exact Bool.noConfusion hv
    | vNull => simp only [hmd]
    | vBool b => simp only [hmd]
    | vInt n => simp only [hmd]
    | vStr s1 => simp only [hmd]
    | vDict d1 => simp only [hmd]

/-- C4 witness: the missing-`monthData` claim at a concrete input. -/
theorem c4_witness :
    update_single_plist_file (.vDict [("foo", .vInt 0)]) [] true =
      .ok ⟨false, false, .vDict [("foo", .vInt 0)], false⟩ :=
  c4_missing_monthdata (Or.inl rfl)

/-- C5: a result with modified = true and succeeded = false occurs exactly when
a write was attempted and the write failed; and whenever the scan changed at
least one record and the write fails, the patch returns (true, false). -/
theorem c5_write_failure :
    (∀ (c : PValue) (s : List (String × PValue)) (w : Bool) (r : UpdateResult),
      update_single_plist_file c s w = .ok r →
      ((r.modified = true ∧ r.succeeded = false) ↔ (r.writeAttempted = true ∧ w = false))) ∧
    (∀ (d : List (String × PValue)) (s : List (String × PValue)) (es es' : List PValue)
        (cnt : Nat), alookup "monthData" d = some (.vList es) →
      scanMonthData s es = .ok (es', cnt, true) →
      update_single_plist_file (.vDict d) s false =
        .ok ⟨true, false, .vDict (setPair "monthData" (.vList es') d), true⟩) := by
  constructor
  · intro c s w r h
    rcases update_ok_inv h with ⟨-, rfl⟩ | ⟨d, es, es', cnt, m, rfl, -, -, rfl⟩
    · simp
    · cases m with
      | true => cases w <;> simp
      | false => simp
  · intro d s es es' cnt hmd hscan
    have h := update_eq_of_scan (w := false) hmd hscan
    simpa using h

/-- C5 witness: both parts of the write-failure claim at a concrete input — a
record needing a change plus a failing write yields (true, false). -/
theorem c5_witness :
    ((true = true ∧ false = false) ↔ (true = true ∧ false = false)) ∧
    update_single_plist_file
        (.vDict [("monthData", .vList [.vDict [("year", .vInt 2025), ("month", .vInt 1),
          ("day", .vInt 1), ("worktime", .vInt 1)]])])
        [("2025-01-01", .vBool true)] false =
      .ok ⟨true, false,
        .vDict [("monthData", .vList [.vDict [("year", .vInt 2025), ("month", .vInt 1),
          ("day", .vInt 1), ("worktime", .vInt 2)]])], true⟩ :=
  ⟨c5_write_failure.1
      (.vDict [("monthData", .vList [.vDict [("year", .vInt 2025), ("month", .vInt 1),
        ("day", .vInt 1), ("worktime", .vInt 1)]])])
      [("2025-01-01", .vBool true)] false
      ⟨true, false, .vDict [("monthData", .vList [.vDict [("year", .vInt 2025),
        ("month", .vInt 1), ("day", .vInt 1), ("worktime", .vInt 2)]])], true⟩ rfl,
   c5_write_failure.2
      [("monthData", .vList [.vDict [("year", .vInt 2025), ("month", .vInt 1),
        ("day", .vInt 1), ("worktime", .vInt 1)]])]
      [("2025-01-01", .vBool true)]
      [.vDict [("year", .vInt 2025), ("month", .vInt 1), ("day", .vInt 1), ("worktime", .vInt 1)]]
      [.vDict [("year", .vInt 2025), ("month", .vInt 1), ("day", .vInt 1), ("worktime", .vInt 2)]]
      1 rfl rfl⟩

/-- C6: a fetched document yielding zero usable entries — `days` missing, not a
list, empty, or containing only entries that fail the required-field test —
makes the fetch return failure (`None`), never a successful empty mapping. -/
theorem c6_zero_usable {d : List (String × PValue)}
    (h : alookup "days" d = none ∨
      (∃ v, alookup "days" d = some v ∧ isList v = false) ∨
      (∃ days, alookup "days" d = some (.vList days) ∧ ∀ di ∈ days, entryUsable di = false)) :
    fetch_holiday_data (.vDict d) = none := by
  have hcore : fetchCore (.vDict d) = .ok none ∨ ∃ e, fetchCore (.vDict d) = .error e := by
    rw [fetchCore]
    rcases h with hmd | ⟨v, hmd, hv⟩ | ⟨days, hmd, hdays⟩
    · simp only [keyIn, hmd, Option.isSome_none]
      exact Or.inl trivial
    · simp only [keyIn, hmd, Option.isSome_some, getItem]
      cases v with
      | vList l => rw [isList] at hv; exact Bool.noConfusion hv
      | vNull => exact Or.inl rfl
      | vBool b => exact Or.inl rfl
      | vInt n => exact Or.inl rfl
      | vStr s1 => exact Or.inl rfl
      | vDict d1 => exact Or.inl rfl
    · simp only [keyIn, hmd, Option.isSome_some, getItem]
      rcases buildMap_unusable (m := []) hdays with hbm | ⟨e, hbm⟩
      · simp only [hbm]
        exact Or.inl rfl
      · simp only [hbm]
        exact Or.inr ⟨e, rfl⟩
  rcases hcore with hc | ⟨e, hc⟩
  · rw [fetch_holiday_data, hc]
  · rw [fetch_holiday_data, hc]

/-- C6 witness: the zero-usable-entries claim at a concrete input — an empty
`days` list fetches to `None`. -/
theorem c6_witness : fetch_holiday_data (.vDict [("days", .vList [])]) = none :=
  c6_zero_usable (Or.inr (Or.inr ⟨[], rfl, by simp⟩))

/-- C7 counterexample: a `days` list holding one fully valid entry followed by
the number 5 — an entry missing both required fields — makes the whole fetch
return `None` (the membership test `'date' in 5` raises `TypeError`, caught by
the catch-all handler), instead of the one-pair mapping the claim demands. -/
theorem c7_counterexample :
    fetch_holiday_data (.vDict [("days", .vList [.vDict [("date", .vStr "2025-01-01"),
        ("isOffDay", .vBool true)], .vInt 5])]) = none ∧
    entryUsable (.vDict [("date", .vStr "2025-01-01"), ("isOffDay", .vBool true)]) = true ∧
    validPairs [.vDict [("date", .vStr "2025-01-01"), ("isOffDay", .vBool true)], .vInt 5] =
      [(.vStr "2025-01-01", .vBool true)] :=
  ⟨rfl, rfl, rfl⟩

/-- C7 (amended): for a document whose `days` list consists of dict entries
(with hashable date values for the entries carrying both fields), entries
missing a required field are skipped and do not abort the fetch: when at least
one entry has both fields, the fetch succeeds and returns exactly the mapping
built from the date/flag pairs of the entries that have both fields. -/
theorem c7_amended {d : List (String × PValue)} {days : List PValue}
    (hmd : alookup "days" d = some (.vList days))
    (hdicts : ∀ di ∈ days, ∃ e, di = .vDict e)
    (hhash : ∀ p ∈ validPairs days, hashable p.1 = true)
    (hne : validPairs days ≠ []) :
    fetch_holiday_data (.vDict d) = some (insertAll (validPairs days) []) ∧
    insertAll (validPairs days) [] ≠ [] := by
  have hbm := buildMap_valid hdicts hhash []
  have hne' := insertAll_validPairs_ne_nil hne
  have hie : (insertAll (validPairs days) []).isEmpty = false := by
    cases hx : insertAll (validPairs days) [] with
    | nil => exact absurd hx hne'
    | cons a l => rfl
  have hcore : fetchCore (.vDict d) = .ok (some (insertAll (validPairs days) [])) := by
    rw [fetchCore]
    simp only [keyIn, hmd, Option.isSome_some, getItem, hbm, hie, Bool.false_eq_true, if_false]
  exact ⟨by rw [fetch_holiday_data, hcore], hne'⟩

/-- C7 witness: the amended claim at a concrete input — one valid entry plus
one dict entry missing both fields yields exactly the one-pair mapping. -/
theorem c7_amended_witness :
    fetch_holiday_data (.vDict [("days", .vList [.vDict [("date", .vStr "2025-01-01"),
        ("isOffDay", .vBool true)], .vDict [("foo", .vInt 1)]])]) =
      some [(.vStr "2025-01-01", .vBool true)] ∧
    ([(.vStr "2025-01-01", PValue.vBool true)] : List (PValue × PValue)) ≠ [] :=
  @c7_amended [("days", .vList [.vDict [("date", .vStr "2025-01-01"),
      ("isOffDay", .vBool true)], .vDict [("foo", .vInt 1)]])]
    [.vDict [("date", .vStr "2025-01-01"), ("isOffDay", .vBool true)],
      .vDict [("foo", .vInt 1)]]
    rfl
    (by intro di hdi; fin_cases hdi <;> exact ⟨_, rfl⟩)
    (by intro p hp; fin_cases hp; rfl)
    (List.cons_ne_nil _ _)

/-- C8 counterexample: a record whose `year` field is a list makes
`int(item['year'])` raise a `TypeError`, which line 126's `except ValueError`
does not catch — the patch operation raises an unhandled fault instead of
skipping the record. -/
theorem c8_counterexample :
    update_single_plist_file
        (.vDict [("monthData", .vList [.vDict [("year", .vList []), ("month", .vInt 1),
          ("day", .vInt 1)]])])
        [] true = .error .typeError :=
  rfl

/-- C8 (amended): a record missing any of the year/month/day keys is skipped
unchanged; a record carrying all three whose first failing `int(...)`
conversion fails with a `ValueError` (e.g. a non-numeric string) is skipped
silently and left unchanged. (A field on which `int(...)` raises `TypeError`
instead — a list, dict or null value — escapes as an unhandled fault, see the
counterexample.) -/
theorem c8_amended :
    (∀ (s : List (String × PValue)) (e : List (String × PValue)),
      (alookup "year" e = none ∨ alookup "month" e = none ∨ alookup "day" e = none) →
      scanItem s (.vDict e) = .ok (.vDict e, false)) ∧
    (∀ (s : List (String × PValue)) (e : List (String × PValue)) (vy vm vd : PValue),
      alookup "year" e = some vy → alookup "month" e = some vm → alookup "day" e = some vd →
      (pyInt vy = .valueErr ∨
        (∃ y, pyInt vy = .ok y ∧ pyInt vm = .valueErr) ∨
        (∃ y m, pyInt vy = .ok y ∧ pyInt vm = .ok m ∧ pyInt vd = .valueErr)) →
      scanItem s (.vDict e) = .ok (.vDict e, false)) := by
  constructor
  · intro s e h
    rcases h with hy | hm | hd
    · simp [scanItem, keyIn, hy]
    · cases hy : alookup "year" e with
      | none => simp [scanItem, keyIn, hy]
      | some vy => simp [scanItem, keyIn, hy, hm]
    · cases hy : alookup "year" e with
      | none => simp [scanItem, keyIn, hy]
      | some vy =>
        cases hm : alookup "month" e with
        | none => simp [scanItem, keyIn, hy, hm]
        | some vm => simp [scanItem, keyIn, hy, hm, hd]
  · intro s e vy vm vd hy hm hd h
    rcases h with h1 | ⟨y, h1, h2⟩ | ⟨y, m, h1, h2, h3⟩
    · simp [scanItem, keyIn, hy, hm, hd, scanItemConv, h1]
    · simp [scanItem, keyIn, hy, hm, hd, scanItemConv, h1, h2]
    · simp [scanItem, keyIn, hy, hm, hd, scanItemConv, h1, h2, h3]

/-- C8 witness: the amended claim at concrete inputs — a record without a
`year` key and a record with the non-numeric year `"20x5"` are both skipped
unchanged. -/
theorem c8_witness :
    scanItem [] (.vDict [("month", .vInt 1), ("day", .vInt 1)]) =
      .ok (.vDict [("month", .vInt 1), ("day", .vInt 1)], false) ∧
    scanItem [] (.vDict [("year", .vStr "20x5"), ("month", .vInt 1), ("day", .vInt 1)]) =
      .ok (.vDict [("year", .vStr "20x5"), ("month", .vInt 1), ("day", .vInt 1)], false) :=
  ⟨c8_amended.1 [] [("month", .vInt 1), ("day", .vInt 1)] (Or.inl rfl),
   c8_amended.2 [] [("year", .vStr "20x5"), ("month", .vInt 1), ("day", .vInt 1)]
     (.vStr "20x5") (.vInt 1) (.vInt 1) rfl rfl rfl (Or.inl rfl)⟩

/-- C9: patching touches only the `worktime` field — every other key of every
day record reads the same after the patch, and every top-level key of the
container other than `monthData` reads the same. -/
theorem c9_frame {c : PValue} {s : List (String × PValue)} {w : Bool} {r : UpdateResult}
    {es es' : List PValue}
    (h : update_single_plist_file c s w = .ok r)
    (hes : monthDataOf c = some es) (hes' : monthDataOf r.content = some es') :
    (∀ k, k ≠ "monthData" → rootGet k r.content = rootGet k c) ∧
    List.Forall₂ frameRel es es' := by
  rcases update_ok_inv h with ⟨hnone, -⟩ | ⟨d, es0, es0', cnt, m, rfl, hmd, hscan, rfl⟩
  · rw [hnone] at hes
    exact Option.noConfusion hes
  · have hes0 : es = es0 := by
      rw [monthDataOf, hmd] at hes
      exact (Option.some.inj hes).symm
    have hes0' : es' = es0' := by
      simp only [monthDataOf, alookup_setPair_self, Option.some.injEq] at hes'
      exact hes'.symm
    subst hes0
    subst hes0'
    refine ⟨fun k hk => ?_, ?_⟩
    · simp only [rootGet]
      exact alookup_setPair_ne _ _ _ _ hk
    · exact List.Forall₂.imp (fun a b hab => hab.elim fun ch hch => scanItem_frame hch)
        (scanMonthData_forall₂ hscan)

/-- C9 witness: the frame claim at a concrete input — a container with an
extra `version` key keeps it, and the patched record keeps its other fields. -/
theorem c9_witness :
    (∀ k, k ≠ "monthData" →
      rootGet k (.vDict [("version", .vInt 3), ("monthData", .vList [.vDict [("year", .vInt 2025),
        ("month", .vInt 1), ("day", .vInt 1), ("worktime", .vInt 2)]])]) =
      rootGet k (.vDict [("version", .vInt 3), ("monthData", .vList [.vDict [("year", .vInt 2025),
        ("month", .vInt 1), ("day", .vInt 1), ("worktime", .vInt 1)]])])) ∧
    List.Forall₂ frameRel
      [.vDict [("year", .vInt 2025), ("month", .vInt 1), ("day", .vInt 1), ("worktime", .vInt 1)]]
      [.vDict [("year", .vInt 2025), ("month", .vInt 1), ("day", .vInt 1), ("worktime", .vInt 2)]] :=
  c9_frame
    (c := .vDict [("version", .vInt 3), ("monthData", .vList [.vDict [("year", .vInt 2025),
      ("month", .vInt 1), ("day", .vInt 1), ("worktime", .vInt 1)]])])
    (s := [("2025-01-01", .vBool true)]) (w := true)
    (r := ⟨true, true, .vDict [("version", .vInt 3), ("monthData", .vList [.vDict
      [("year", .vInt 2025), ("month", .vInt 1), ("day", .vInt 1), ("worktime", .vInt 2)]])], true⟩)
    rfl rfl rfl

/-- C10: a record whose date string is in the mapping but which has no
`worktime` key at all gets the key added with the computed code (2 for a
truthy flag, 1 otherwise) and is counted as changed; any such changed record
makes the patch report modified = true. -/
theorem c10_adds_worktime :
    (∀ (s : List (String × PValue)) (e : List (String × PValue)) (ds : String) (off : PValue),
      recordDate (.vDict e) = some ds → alookup ds s = some off →
      alookup "worktime" e = none →
      scanItem s (.vDict e) =
        .ok (.vDict (setPair "worktime" (.vInt (if pyTruthy off then 2 else 1)) e), true)) ∧
    (∀ (c : PValue) (s : List (String × PValue)) (w : Bool) (r : UpdateResult)
        (es : List PValue) (a b : PValue),
      update_single_plist_file c s w = .ok r → monthDataOf c = some es →
      a ∈ es → scanItem s a = .ok (b, true) → r.modified = true) := by
  constructor
  · intro s e ds off hrd hoff hwt
    rw [scanItem_of_recordDate s e ds hrd, scanItemApply]
    simp only [hoff, hwt]
    simp [pyEqOptInt]
  · intro c s w r es a b h hes hmem hab
    rcases update_ok_inv h with ⟨hnone, -⟩ | ⟨d, es0, es0', cnt, m, rfl, hmd, hscan, rfl⟩
    · rw [hnone] at hes
      exact Option.noConfusion hes
    · have hes0 : es = es0 := by
        rw [monthDataOf, hmd] at hes
        exact (Option.some.inj hes).symm
      subst hes0
      exact scanMonthData_mem_true hscan hmem hab

/-- C10 witness: the add-worktime claim at a concrete input — a record with no
`worktime` key gets `worktime = 2` appended and the patch reports
modified = true. -/
theorem c10_witness :
    scanItem [("2025-01-01", PValue.vBool true)]
        (.vDict [("year", .vInt 2025), ("month", .vInt 1), ("day", .vInt 1)]) =
      .ok (.vDict [("year", .vInt 2025), ("month", .vInt 1), ("day", .vInt 1),
        ("worktime", .vInt 2)], true) ∧
    (⟨true, true, .vDict [("monthData", .vList [.vDict [("year", .vInt 2025), ("month", .vInt 1),
      ("day", .vInt 1), ("worktime", .vInt 2)]])], true⟩ : UpdateResult).modified = true :=
  ⟨c10_adds_worktime.1 [("2025-01-01", PValue.vBool true)]
      [("year", .vInt 2025), ("month", .vInt 1), ("day", .vInt 1)] "2025-01-01"
      (.vBool true) rfl rfl rfl,
   c10_adds_worktime.2
      (.vDict [("monthData", .vList [.vDict [("year", .vInt 2025), ("month", .vInt 1),
        ("day", .vInt 1)]])])
      [("2025-01-01", PValue.vBool true)] true
      ⟨true, true, .vDict [("monthData", .vList [.vDict [("year", .vInt 2025), ("month", .vInt 1),
        ("day", .vInt 1), ("worktime", .vInt 2)]])], true⟩
      [.vDict [("year", .vInt 2025), ("month", .vInt 1), ("day", .vInt 1)]]
      (.vDict [("year", .vInt 2025), ("month", .vInt 1), ("day", .vInt 1)])
      (.vDict [("year", .vInt 2025), ("month", .vInt 1), ("day", .vInt 1),
        ("worktime", .vInt 2)])
      rfl rfl (List.mem_cons_self _ _) rfl⟩
